import Mathlib

/-!
Verification development for the orchestron MIDI timing tools: a shallow
embedding of `src/tools/midi_pulse.c` (the periodic note transmitter) and
`src/tools/midi_stats.c` (the receiving interval/jitter analyser), with
theorems about the anchored dispatch scheduler, the streaming statistics
accumulators, the per-series interval tracker and the byte-stream
classifier.

Modelling conventions: C unsigned 64-bit quantities are `Nat` reduced
mod `2 ^ 64` exactly where the source's arithmetic wraps; `__uint128_t`
intermediates are reduced mod `2 ^ 128`; `int64_t` results of casts are
obtained through `toInt64`; the `long double` accumulator fields are
carried as exact rationals (`ℚ`), which agrees with the source on every
value the claims touch and keeps all definitions executable.
-/

/-- Embeds `mach_timebase_info_data_t`: numerator and denominator of the
tick-to-nanosecond ratio.  Both fields are `uint32_t` in the source, so a
faithful instantiation has `numer < 2 ^ 32` and `denom < 2 ^ 32`. -/
structure Timebase where
  numer : Nat
  denom : Nat
  deriving DecidableEq

/-- Embeds the C cast `(int64_t)` applied to an unsigned 64-bit value:
reduce mod `2 ^ 64` and reinterpret in two's complement. -/
def toInt64 (n : Nat) : Int :=
  if n % 2 ^ 64 < 2 ^ 63 then ((n % 2 ^ 64 : Nat) : Int)
  else ((n % 2 ^ 64 : Nat) : Int) - 2 ^ 64

namespace MidiPulse

/-- Embeds `host_to_ns` of midi_pulse.c:
`(uint64_t)(((__uint128_t)host_ticks * g_timebase.numer) / g_timebase.denom)`. -/
def host_to_ns (tb : Timebase) (host_ticks : Nat) : Nat :=
  (host_ticks * tb.numer % 2 ^ 128 / tb.denom) % 2 ^ 64

/-- Embeds `ns_to_host` of midi_pulse.c:
`(uint64_t)(((__uint128_t)ns * g_timebase.denom) / g_timebase.numer)`. -/
def ns_to_host (tb : Timebase) (ns : Nat) : Nat :=
  (ns * tb.denom % 2 ^ 128 / tb.numer) % 2 ^ 64

/-- Embeds `delta_ns_from_host` of midi_pulse.c: signed nanosecond
difference of two tick values, computed by unsigned subtraction in the
larger-minus-smaller direction. -/
def delta_ns_from_host (tb : Timebase) (actual target : Nat) : Int :=
  if target ≤ actual then toInt64 (host_to_ns tb (actual - target))
  else - toInt64 (host_to_ns tb (target - actual))

/-- Embeds `JitterStats` of midi_pulse.c.  The two `long double` sums are
carried as exact rationals. -/
structure JitterStats where
  min_late_ns : Int
  max_late_ns : Int
  sum_late_ns : ℚ
  sum_abs_late_ns : ℚ
  count : Nat
  deriving DecidableEq

/-- Embeds `stats_init` of midi_pulse.c (`INT64_MAX` and `INT64_MIN`
sentinels, zero sums, zero count). -/
def stats_init : JitterStats :=
  { min_late_ns := 2 ^ 63 - 1
    max_late_ns := -(2 ^ 63)
    sum_late_ns := 0
    sum_abs_late_ns := 0
    count := 0 }

/-- Embeds `stats_add` of midi_pulse.c. -/
def stats_add (stats : JitterStats) (late_ns : Int) : JitterStats :=
  { min_late_ns := if late_ns < stats.min_late_ns then late_ns else stats.min_late_ns
    max_late_ns := if stats.max_late_ns < late_ns then late_ns else stats.max_late_ns
    sum_late_ns := stats.sum_late_ns + (late_ns : ℚ)
    sum_abs_late_ns := stats.sum_abs_late_ns + |(late_ns : ℚ)|
    count := stats.count + 1 }

/-- Feeds a finite sample sequence to a freshly initialised accumulator:
`stats_init` followed by one `stats_add` per list element, in order. -/
def stats_fold (l : List Int) : JitterStats :=
  l.foldl stats_add stats_init

/-- Embeds `stats_print` of midi_pulse.c.  The function only reads the
accumulator (it takes a `const` pointer and writes nothing), so it is
embedded as the pair of the numeric output and the state it leaves
behind.  The output is `none` when `count == 0` (the source prints
nothing), otherwise the note count and the four printed quantities
(mean, absolute mean, min, max, each scaled to milliseconds) as exact
values; the printed bytes are a function of these values alone. -/
def stats_print (stats : JitterStats) (note_count : Nat) :
    Option (Nat × ℚ × ℚ × ℚ × ℚ) × JitterStats :=
  if stats.count = 0 then (none, stats)
  else
    (some (note_count,
      stats.sum_late_ns / (stats.count : ℚ) / 1000000,
      stats.sum_abs_late_ns / (stats.count : ℚ) / 1000000,
      (stats.min_late_ns : ℚ) / 1000000,
      (stats.max_late_ns : ℚ) / 1000000), stats)

/-- Embeds the on-target computation of iteration `i` of main's dispatch
loop: `uint64_t on_target = start_host + (uint64_t)i * interval_host`. -/
def on_target (start_host interval_host : Nat) (i : Nat) : Nat :=
  (start_host + i * interval_host) % 2 ^ 64

/-- Embeds `(uint64_t)llround((long double)interval_ns * cfg.gate)`, the
gate duration in nanoseconds.  For `gate` in `[0, 1]` the product is
nonnegative and `llround` (round half away from zero) is `⌊x + 1/2⌋`;
the `long double` product is modeled exactly over `ℚ`. -/
def gate_ns_of (interval_ns : Nat) (gate : ℚ) : Nat :=
  (⌊(interval_ns : ℚ) * gate + 1 / 2⌋).toNat

/-- One iteration of the dispatch loop, as computed by main: the on-target
from the fixed anchor and the index, the lead-adjusted dispatch target,
the paired off-target `on_target + gate_host`, and the lateness sample.
`wake` is the tick at which `sleep_until_host` actually returned for this
iteration (the simulated sleep jitter); it enters only the lateness
sample, never any target. -/
structure DispatchIter where
  on_tgt : Nat
  dispatch_tgt : Nat
  off_tgt : Nat
  late_ns : Int
  deriving DecidableEq

/-- Embeds the target computations of one pass of main's dispatch loop
(midi_pulse.c, the body of the `for` loop). -/
def dispatch_iter (tb : Timebase) (start_host interval_host gate_host lead_host : Nat)
    (wake : Nat → Nat) (i : Nat) : DispatchIter :=
  let onT := on_target start_host interval_host i
  { on_tgt := onT
    dispatch_tgt := if lead_host < onT then onT - lead_host else onT
    off_tgt := (onT + gate_host) % 2 ^ 64
    late_ns := delta_ns_from_host tb (wake i) onT }

/-- The first `count` iterations of the dispatch loop. -/
def dispatch_iters (tb : Timebase) (start_host interval_host gate_host lead_host : Nat)
    (count : Nat) (wake : Nat → Nat) : List DispatchIter :=
  (List.range count).map (dispatch_iter tb start_host interval_host gate_host lead_host wake)

end MidiPulse

namespace MidiStats

/-- Embeds `host_to_ns` of midi_stats.c (identical to the transmitter's). -/
def host_to_ns (tb : Timebase) (host_ticks : Nat) : Nat :=
  (host_ticks * tb.numer % 2 ^ 128 / tb.denom) % 2 ^ 64

/-- Embeds `delta_ns_from_host` of midi_stats.c: signed nanosecond
difference `newer - older`, computed by unsigned subtraction in the
larger-minus-smaller direction. -/
def delta_ns_from_host (tb : Timebase) (newer older : Nat) : Int :=
  if older ≤ newer then toInt64 (host_to_ns tb (newer - older))
  else - toInt64 (host_to_ns tb (older - newer))

/-- Embeds `IntervalStats` of midi_stats.c; `long double` sums carried as
exact rationals. -/
structure IntervalStats where
  min_ns : Int
  max_ns : Int
  sum_ns : ℚ
  sum_sq_ns : ℚ
  count : Nat
  deriving DecidableEq

/-- Embeds `JitterStats` of midi_stats.c (this one also accumulates the
sum of absolute values). -/
structure JitterStats where
  min_ns : Int
  max_ns : Int
  sum_ns : ℚ
  sum_abs_ns : ℚ
  sum_sq_ns : ℚ
  count : Nat
  deriving DecidableEq

/-- Embeds `interval_init` of midi_stats.c. -/
def interval_init : IntervalStats :=
  { min_ns := 2 ^ 63 - 1
    max_ns := -(2 ^ 63)
    sum_ns := 0
    sum_sq_ns := 0
    count := 0 }

/-- Embeds `interval_add` of midi_stats.c. -/
def interval_add (stats : IntervalStats) (value_ns : Int) : IntervalStats :=
  { min_ns := if value_ns < stats.min_ns then value_ns else stats.min_ns
    max_ns := if stats.max_ns < value_ns then value_ns else stats.max_ns
    sum_ns := stats.sum_ns + (value_ns : ℚ)
    sum_sq_ns := stats.sum_sq_ns + (value_ns : ℚ) * (value_ns : ℚ)
    count := stats.count + 1 }

/-- Embeds `jitter_init` of midi_stats.c. -/
def jitter_init : JitterStats :=
  { min_ns := 2 ^ 63 - 1
    max_ns := -(2 ^ 63)
    sum_ns := 0
    sum_abs_ns := 0
    sum_sq_ns := 0
    count := 0 }

/-- Embeds `jitter_add` of midi_stats.c. -/
def jitter_add (stats : JitterStats) (value_ns : Int) : JitterStats :=
  { min_ns := if value_ns < stats.min_ns then value_ns else stats.min_ns
    max_ns := if stats.max_ns < value_ns then value_ns else stats.max_ns
    sum_ns := stats.sum_ns + (value_ns : ℚ)
    sum_abs_ns := stats.sum_abs_ns + |(value_ns : ℚ)|
    sum_sq_ns := stats.sum_sq_ns + (value_ns : ℚ) * (value_ns : ℚ)
    count := stats.count + 1 }

/-- Feeds a finite sample sequence to a freshly initialised interval
accumulator. -/
def interval_fold (l : List Int) : IntervalStats :=
  l.foldl interval_add interval_init

/-- Feeds a finite sample sequence to a freshly initialised jitter
accumulator. -/
def jitter_fold (l : List Int) : JitterStats :=
  l.foldl jitter_add jitter_init

/-- Embeds `SeriesStats` of midi_stats.c. -/
structure SeriesStats where
  have_previous : Bool
  previous_timestamp : Nat
  have_reference_interval : Bool
  reference_interval_ns : Int
  events_seen : Nat
  intervals_seen : Nat
  interval : IntervalStats
  jitter : JitterStats
  deriving DecidableEq

/-- Embeds `series_init` of midi_stats.c. -/
def series_init : SeriesStats :=
  { have_previous := false
    previous_timestamp := 0
    have_reference_interval := false
    reference_interval_ns := 0
    events_seen := 0
    intervals_seen := 0
    interval := interval_init
    jitter := jitter_init }

/-- Embeds `series_add_event` of midi_stats.c: the first event only
records the previous timestamp; every later event measures the interval
to the previous event, fixes the reference interval if it is not yet
fixed, and feeds the interval and jitter accumulators. -/
def series_add_event (tb : Timebase) (series : SeriesStats) (timestamp : Nat) : SeriesStats :=
  if series.have_previous = false then
    { series with
        have_previous := true
        previous_timestamp := timestamp
        events_seen := 1 }
  else
    let interval_ns := delta_ns_from_host tb timestamp series.previous_timestamp
    let s1 := { series with
        previous_timestamp := timestamp
        events_seen := series.events_seen + 1 }
    let s2 := if s1.have_reference_interval = false then
        { s1 with
            reference_interval_ns := interval_ns
            have_reference_interval := true }
      else s1
    let jitter_ns := interval_ns - s2.reference_interval_ns
    { s2 with
        interval := interval_add s2.interval interval_ns
        jitter := jitter_add s2.jitter jitter_ns
        intervals_seen := s2.intervals_seen + 1 }

/-- Feeds a list of timestamps to a series, in order. -/
def series_feed (tb : Timebase) (series : SeriesStats) (timestamps : List Nat) : SeriesStats :=
  timestamps.foldl (series_add_event tb) series

/-- Embeds `Config` of midi_stats.c, restricted to the fields the core
reads (the source validates channel to 1-16, count to >= 0 and
report_every to >= 1 before the core starts). -/
structure Config where
  channel : Nat
  count : Nat
  report_every : Nat
  deriving DecidableEq

/-- Embeds `RuntimeState` of midi_stats.c, together with the cooperative
stop flag `g_keep_running` that `on_matching_event` clears when the
configured event count is reached. -/
structure RuntimeState where
  cfg : Config
  events_seen : Nat
  timestamped_events : Nat
  untimestamped_events : Nat
  effective_series : SeriesStats
  timestamped_series : SeriesStats
  arrival_vs_timestamp : JitterStats
  keep_running : Bool
  deriving DecidableEq

/-- The receiver state as main initialises it before listening. -/
def init_state (cfg : Config) : RuntimeState :=
  { cfg := cfg
    events_seen := 0
    timestamped_events := 0
    untimestamped_events := 0
    effective_series := series_init
    timestamped_series := series_init
    arrival_vs_timestamp := jitter_init
    keep_running := true }

/-- Embeds `on_matching_event` of midi_stats.c: counts the event, routes
it to the timestamped or untimestamped side, feeds the effective-time
series with the hardware timestamp when nonzero and the arrival
timestamp otherwise, and clears the stop flag once the configured count
is reached.  The periodic report print inside the source touches no
state. -/
def on_matching_event (tb : Timebase) (state : RuntimeState)
    (packet_timestamp arrival_timestamp : Nat) : RuntimeState :=
  let effective_timestamp :=
    if packet_timestamp ≠ 0 then packet_timestamp else arrival_timestamp
  let s1 := { state with events_seen := state.events_seen + 1 }
  let s2 :=
    if packet_timestamp ≠ 0 then
      { s1 with
          timestamped_events := s1.timestamped_events + 1
          timestamped_series := series_add_event tb s1.timestamped_series packet_timestamp
          arrival_vs_timestamp := jitter_add s1.arrival_vs_timestamp
            (delta_ns_from_host tb arrival_timestamp packet_timestamp) }
    else
      { s1 with untimestamped_events := s1.untimestamped_events + 1 }
  let s3 := { s2 with
      effective_series := series_add_event tb s2.effective_series effective_timestamp }
  if 0 < s3.cfg.count ∧ s3.cfg.count ≤ s3.events_seen then
    { s3 with keep_running := false }
  else s3

/-- Feeds a list of (packet timestamp, arrival timestamp) pairs to the
qualifying-event handler, in order. -/
def run_events (tb : Timebase) (state : RuntimeState) (evs : List (Nat × Nat)) : RuntimeState :=
  evs.foldl (fun s e => on_matching_event tb s e.1 e.2) state

/-- Embeds `stats_stddev` of midi_stats.c up to the final `sqrtl`: the
clamped variance `max(sum_sq/count - mean^2, 0)` (zero when the count is
zero).  The square root of a rational is irrational in general, so the
embedding carries the radicand; the printed standard deviation is
`sqrtl` of this value and is byte-determined by it. -/
def stats_variance (sum sum_sq : ℚ) (count : Nat) : ℚ :=
  if count = 0 then 0
  else
    let mean := sum / (count : ℚ)
    let variance := sum_sq / (count : ℚ) - mean * mean
    if variance < 0 then 0 else variance

/-- The numeric quantities `print_series_report` of midi_stats.c prints
for one series, as exact values (standard deviations represented by
their radicand, see `stats_variance`), in print order; `none` when the
source prints the insufficient-data line instead. -/
def series_report_values (series : SeriesStats) :
    Option (Nat × ℚ × ℚ × ℚ × ℚ × ℚ × ℚ × ℚ × ℚ × ℚ × ℚ) :=
  if series.interval.count = 0 ∨ series.jitter.count = 0 then none
  else
    some (series.intervals_seen,
      series.interval.sum_ns / (series.interval.count : ℚ) / 1000000,
      stats_variance series.interval.sum_ns series.interval.sum_sq_ns series.interval.count,
      (series.interval.min_ns : ℚ) / 1000000,
      (series.interval.max_ns : ℚ) / 1000000,
      (series.reference_interval_ns : ℚ) / 1000000,
      series.jitter.sum_ns / (series.jitter.count : ℚ) / 1000000,
      series.jitter.sum_abs_ns / (series.jitter.count : ℚ) / 1000000,
      stats_variance series.jitter.sum_ns series.jitter.sum_sq_ns series.jitter.count,
      (series.jitter.min_ns : ℚ) / 1000000,
      (series.jitter.max_ns : ℚ) / 1000000)

/-- The numeric quantities `print_lateness_report` of midi_stats.c
prints, as exact values; `none` when the source prints the
no-timestamped-events line instead. -/
def lateness_report_values (stats : JitterStats) :
    Option (ℚ × ℚ × ℚ × ℚ × ℚ × Nat) :=
  if stats.count = 0 then none
  else
    some (stats.sum_ns / (stats.count : ℚ) / 1000000,
      stats.sum_abs_ns / (stats.count : ℚ) / 1000000,
      stats_variance stats.sum_ns stats.sum_sq_ns stats.count,
      (stats.min_ns : ℚ) / 1000000,
      (stats.max_ns : ℚ) / 1000000,
      stats.count)

/-- The numeric output of one `print_report` call of midi_stats.c: the
header counters with the timestamp percentage, then both series lines
and the lateness line. -/
structure Report where
  final_flag : Bool
  events_seen : Nat
  timestamped_events : Nat
  untimestamped_events : Nat
  percent_timestamped : ℚ
  effective : Option (Nat × ℚ × ℚ × ℚ × ℚ × ℚ × ℚ × ℚ × ℚ × ℚ × ℚ)
  timestamp_only : Option (Nat × ℚ × ℚ × ℚ × ℚ × ℚ × ℚ × ℚ × ℚ × ℚ × ℚ)
  lateness : Option (ℚ × ℚ × ℚ × ℚ × ℚ × Nat)

/-- Embeds `print_report` of midi_stats.c.  The function only reads the
state (it takes a `const` pointer and writes nothing), so it is embedded
as the pair of the numeric output and the state the call leaves
behind. -/
def print_report (state : RuntimeState) (final_report : Bool) : Report × RuntimeState :=
  ({ final_flag := final_report
     events_seen := state.events_seen
     timestamped_events := state.timestamped_events
     untimestamped_events := state.untimestamped_events
     percent_timestamped :=
       if 0 < state.events_seen then
         (state.timestamped_events : ℚ) / (state.events_seen : ℚ) * 100
       else 0
     effective := series_report_values state.effective_series
     timestamp_only := series_report_values state.timestamped_series
     lateness := lateness_report_values state.arrival_vs_timestamp },
   state)

/-- Embeds `midi_channel_message_length` of midi_stats.c. -/
def midi_channel_message_length (status : Nat) : Nat :=
  if status &&& 0xF0 = 0xC0 ∨ status &&& 0xF0 = 0xD0 then 2 else 3

/-- Embeds `midi_system_message_length` of midi_stats.c. -/
def midi_system_message_length (status : Nat) : Nat :=
  if status = 0xF1 ∨ status = 0xF3 then 2
  else if status = 0xF2 then 3
  else if status = 0xF6 ∨ status = 0xF8 ∨ status = 0xFA ∨ status = 0xFB ∨
      status = 0xFC ∨ status = 0xFE ∨ status = 0xFF then 1
  else 0

/-- The index at which the system-exclusive scan of
`process_packet_bytes` stops: the first index at or after `k` holding a
0xF7 terminator, or the buffer length when there is none. -/
def sysex_end (data : List Nat) (k : Nat) : Nat :=
  k + List.findIdx (fun b => b == 0xF7) (data.drop k)

/-- The outcome of running the classifier's scan loop: the final state,
the number of passes of the loop body that executed, and whether the
loop reached its exit (rather than exhausting the fuel of the
embedding).  `passes` and `finished` instrument the termination claim
and do not exist in the source. -/
structure LoopResult where
  state : RuntimeState
  passes : Nat
  finished : Bool
  deriving DecidableEq

/-- Embeds the `while (i < length)` scan loop of `process_packet_bytes`
of midi_stats.c, one constructor case per pass, with explicit fuel (the
caller supplies `length` fuel, which theorem `c10` shows is enough).
Data bytes without the high bit are skipped singly; a 0xF0 starts a
system-exclusive skip to past the next 0xF7; other system statuses
advance by their fixed length or break on truncation; channel voice
messages advance by their length or break on truncation, and a note-on
(high nibble 0x90) on the configured channel with positive velocity is
forwarded to `on_matching_event`. -/
def process_loop (tb : Timebase) (packet_timestamp arrival_timestamp : Nat)
    (data : List Nat) : Nat → Nat → RuntimeState → LoopResult
  | 0, i, state => ⟨state, 0, decide (data.length ≤ i)⟩
  | fuel + 1, i, state =>
    if data.length ≤ i then ⟨state, 0, true⟩
    else
      let continue_at := fun (j : Nat) (st : RuntimeState) =>
        let r := process_loop tb packet_timestamp arrival_timestamp data fuel j st
        LoopResult.mk r.state (r.passes + 1) r.finished
      let status := data.getD i 0
      if status &&& 0x80 = 0 then
        continue_at (i + 1) state
      else if 0xF0 ≤ status then
        if status = 0xF0 then
          let j := sysex_end data (i + 1)
          continue_at (if j < data.length then j + 1 else j) state
        else
          let system_len := midi_system_message_length status
          if system_len = 0 then continue_at (i + 1) state
          else if data.length < i + system_len then ⟨state, 1, true⟩
          else continue_at (i + system_len) state
      else
        let msg_len := midi_channel_message_length status
        if data.length < i + msg_len then ⟨state, 1, true⟩
        else
          let channel := (status &&& 0x0F) + 1
          let state :=
            if channel = state.cfg.channel ∧ status &&& 0xF0 = 0x90 ∧ msg_len = 3 ∧
                0 < data.getD (i + 2) 0 then
              on_matching_event tb state packet_timestamp arrival_timestamp
            else state
          continue_at (i + msg_len) state

/-- Embeds `process_packet_bytes` of midi_stats.c: scan the whole buffer
from index 0. -/
def process_packet_bytes (state : RuntimeState) (tb : Timebase)
    (packet_timestamp arrival_timestamp : Nat) (data : List Nat) : LoopResult :=
  process_loop tb packet_timestamp arrival_timestamp data data.length 0 state

end MidiStats

section Helpers

/-- A value already below `2 ^ 63` is represented by itself under the
`(int64_t)` cast. -/
lemma toInt64_of_lt (n : Nat) (h : n < 2 ^ 63) : toInt64 n = n := by
  have h64 : n < 2 ^ 64 := lt_trans h (by norm_num)
  unfold toInt64
  rw [Nat.mod_eq_of_lt h64, if_pos h]

/-- Without wraparound the on-target is exactly anchor plus index times
interval. -/
lemma on_target_eq_of_lt (start_host interval_host i : Nat)
    (h : start_host + i * interval_host < 2 ^ 64) :
    MidiPulse.on_target start_host interval_host i = start_host + i * interval_host :=
  Nat.mod_eq_of_lt h

/-- The on-target list of the first `count` dispatch iterations, read off
the oracle-run loop. -/
lemma dispatch_iters_on_tgts (tb : Timebase)
    (start_host interval_host gate_host lead_host count : Nat) (wake : Nat → Nat) :
    (MidiPulse.dispatch_iters tb start_host interval_host gate_host lead_host count wake).map
        MidiPulse.DispatchIter.on_tgt
      = (List.range count).map (MidiPulse.on_target start_host interval_host) := by
  simp [MidiPulse.dispatch_iters, MidiPulse.dispatch_iter, Function.comp_def]

end Helpers

/-- C1: for every iteration `i` (0-based) of the dispatch loop with
anchor `start_host` and interval `interval_host`, the on-target equals
`start_host + i * interval_host`, computed from the fixed anchor and the
index only — the on-target list is independent of the wake-time oracle
(how late each sleep returned) — and in particular for a 500 ms interval
at a 1:1 tick/ns timebase and count 4 the on-targets are exactly
`start, start + 500ms, start + 1000ms, start + 1500ms`. -/
theorem c1_on_targets_from_fixed_anchor (tb : Timebase)
    (start_host interval_host gate_host lead_host count : Nat)
    (wake wake' : Nat → Nat) (i : Nat)
    (hwrap : start_host + i * interval_host < 2 ^ 64)
    (hwrap4 : start_host + 3 * 500000000 < 2 ^ 64) :
    ((MidiPulse.dispatch_iters tb start_host interval_host gate_host lead_host count wake).map
        MidiPulse.DispatchIter.on_tgt
      = (MidiPulse.dispatch_iters tb start_host interval_host gate_host lead_host count
          wake').map MidiPulse.DispatchIter.on_tgt)
    ∧ MidiPulse.on_target start_host interval_host i = start_host + i * interval_host
    ∧ (MidiPulse.dispatch_iters tb start_host (MidiPulse.ns_to_host ⟨1, 1⟩ 500000000)
          gate_host lead_host 4 wake).map MidiPulse.DispatchIter.on_tgt
        = [start_host, start_host + 500000000, start_host + 1000000000,
           start_host + 1500000000] := by
  have hhost : MidiPulse.ns_to_host ⟨1, 1⟩ 500000000 = 500000000 := by decide
  refine ⟨?_, on_target_eq_of_lt _ _ _ hwrap, ?_⟩
  · rw [dispatch_iters_on_tgts, dispatch_iters_on_tgts]
  · rw [dispatch_iters_on_tgts, hhost]
    have h0 : MidiPulse.on_target start_host 500000000 0 = start_host := by
      have := on_target_eq_of_lt start_host 500000000 0 (by omega)
      simpa using this
    have h1 : MidiPulse.on_target start_host 500000000 1 = start_host + 500000000 := by
      have := on_target_eq_of_lt start_host 500000000 1 (by omega)
      simpa using this
    have h2 : MidiPulse.on_target start_host 500000000 2 = start_host + 1000000000 := by
      have := on_target_eq_of_lt start_host 500000000 2 (by omega)
      omega
    have h3 : MidiPulse.on_target start_host 500000000 3 = start_host + 1500000000 := by
      have := on_target_eq_of_lt start_host 500000000 3 (by omega)
      omega
    simp [List.range_succ, h0, h1, h2, h3]

/-- C1 witness: the theorem applied at a concrete anchor, interval and
pair of wake oracles. -/
theorem c1_witness :
    ((MidiPulse.dispatch_iters ⟨1, 1⟩ 1000 500000000 250000000 2000000 4 (fun k => 1000 + k)).map
        MidiPulse.DispatchIter.on_tgt
      = (MidiPulse.dispatch_iters ⟨1, 1⟩ 1000 500000000 250000000 2000000 4
          (fun _ => 77)).map MidiPulse.DispatchIter.on_tgt)
    ∧ MidiPulse.on_target 1000 500000000 2 = 1000 + 2 * 500000000
    ∧ (MidiPulse.dispatch_iters ⟨1, 1⟩ 1000 (MidiPulse.ns_to_host ⟨1, 1⟩ 500000000)
          250000000 2000000 4 (fun k => 1000 + k)).map MidiPulse.DispatchIter.on_tgt
        = [1000, 1000 + 500000000, 1000 + 1000000000, 1000 + 1500000000] :=
  c1_on_targets_from_fixed_anchor ⟨1, 1⟩ 1000 500000000 250000000 2000000 4
    (fun k => 1000 + k) (fun _ => 77) 2 (by norm_num) (by norm_num)

/-- C6: for every iteration the off-target equals the on-target plus the
converted gate duration, with no clamping against the next iteration's
on-target — at `gate_host = interval_host` (gate fraction 1.0) the
off-target lands exactly on the next iteration's on-target — and for a
200 ms interval with gate 0.25 the gate duration is
`round(200ms * 0.25) = 50 ms`, so at a 1:1 timebase every off-target is
its on-target + 50 ms. -/
theorem c6_off_target_gate (tb : Timebase)
    (start_host interval_host gate_host lead_host : Nat) (wake : Nat → Nat) (i : Nat)
    (hwrap : start_host + i * interval_host + gate_host < 2 ^ 64) :
    ((MidiPulse.dispatch_iter tb start_host interval_host gate_host lead_host wake i).off_tgt
      = (MidiPulse.dispatch_iter tb start_host interval_host gate_host lead_host wake i).on_tgt
        + gate_host)
    ∧ (gate_host = interval_host →
        (MidiPulse.dispatch_iter tb start_host interval_host gate_host lead_host wake i).off_tgt
          = MidiPulse.on_target start_host interval_host (i + 1))
    ∧ MidiPulse.gate_ns_of 200000000 (1 / 4) = 50000000
    ∧ MidiPulse.ns_to_host ⟨1, 1⟩ (MidiPulse.gate_ns_of 200000000 (1 / 4))
        = MidiPulse.ns_to_host ⟨1, 1⟩ 50000000 := by
  have hgate : MidiPulse.gate_ns_of 200000000 (1 / 4) = 50000000 := by
    norm_num [MidiPulse.gate_ns_of]
    decide
  have hon : MidiPulse.on_target start_host interval_host i
      = start_host + i * interval_host :=
    on_target_eq_of_lt _ _ _ (by omega)
  refine ⟨?_, ?_, hgate, by rw [hgate]⟩
  · show (MidiPulse.on_target start_host interval_host i + gate_host) % 2 ^ 64
      = MidiPulse.on_target start_host interval_host i + gate_host
    rw [hon, Nat.mod_eq_of_lt hwrap]
  · intro hg
    show (MidiPulse.on_target start_host interval_host i + gate_host) % 2 ^ 64 = _
    unfold MidiPulse.on_target
    rw [hg, Nat.mod_add_mod]
    congr 1
    ring

/-- C6 witness: the theorem applied at a concrete anchor, interval and
gate. -/
theorem c6_witness :
    ((MidiPulse.dispatch_iter ⟨1, 1⟩ 1000 200000000 50000000 2000000 (fun k => 1000 + k)
        3).off_tgt
      = (MidiPulse.dispatch_iter ⟨1, 1⟩ 1000 200000000 50000000 2000000 (fun k => 1000 + k)
          3).on_tgt + 50000000)
    ∧ (50000000 = 200000000 →
        (MidiPulse.dispatch_iter ⟨1, 1⟩ 1000 200000000 50000000 2000000 (fun k => 1000 + k)
            3).off_tgt
          = MidiPulse.on_target 1000 200000000 (3 + 1))
    ∧ MidiPulse.gate_ns_of 200000000 (1 / 4) = 50000000
    ∧ MidiPulse.ns_to_host ⟨1, 1⟩ (MidiPulse.gate_ns_of 200000000 (1 / 4))
        = MidiPulse.ns_to_host ⟨1, 1⟩ 50000000 :=
  c6_off_target_gate ⟨1, 1⟩ 1000 200000000 50000000 2000000 (fun k => 1000 + k) 3
    (by norm_num)

/-- C7: for every pair of tick values, the signed delta is the
nanosecond conversion of the larger-minus-smaller unsigned difference
with the sign of the direction; the 128-bit intermediate product with
the (32-bit) timebase numerator stays far below `2 ^ 128`, so the
widened multiplication cannot overflow.  Both tools' `delta_ns_from_host`
functions agree.  The fit hypotheses state that the converted magnitude
fits in `int64_t`, so the final cast is value-preserving. -/
theorem c7_signed_delta (tb : Timebase) (a b : Nat)
    (hn : tb.numer < 2 ^ 32) (ha : a < 2 ^ 64) (hb : b < 2 ^ 64)
    (hfit : (a - b) * tb.numer / tb.denom < 2 ^ 63)
    (hfit2 : (b - a) * tb.numer / tb.denom < 2 ^ 63) :
    (a - b) * tb.numer < 2 ^ 128
    ∧ (b - a) * tb.numer < 2 ^ 128
    ∧ MidiPulse.delta_ns_from_host tb a b
        = (if b ≤ a then (((a - b) * tb.numer / tb.denom : Nat) : Int)
           else -(((b - a) * tb.numer / tb.denom : Nat) : Int))
    ∧ MidiStats.delta_ns_from_host tb a b = MidiPulse.delta_ns_from_host tb a b := by
  have hprod : ∀ x : Nat, x < 2 ^ 64 → x * tb.numer < 2 ^ 128 := by
    intro x hx
    calc x * tb.numer < 2 ^ 64 * 2 ^ 32 := by
          apply Nat.mul_lt_mul_of_lt_of_le hx (Nat.le_of_lt hn)
          norm_num
      _ < 2 ^ 128 := by norm_num
  have hab : a - b < 2 ^ 64 := lt_of_le_of_lt (Nat.sub_le a b) ha
  have hba : b - a < 2 ^ 64 := lt_of_le_of_lt (Nat.sub_le b a) hb
  have h1 : (a - b) * tb.numer < 2 ^ 128 := hprod _ hab
  have h2 : (b - a) * tb.numer < 2 ^ 128 := hprod _ hba
  have hto : ∀ x : Nat, x < 2 ^ 64 → x * tb.numer / tb.denom < 2 ^ 63 →
      MidiPulse.host_to_ns tb x = x * tb.numer / tb.denom := by
    intro x hx hxfit
    unfold MidiPulse.host_to_ns
    rw [Nat.mod_eq_of_lt (hprod x hx),
      Nat.mod_eq_of_lt (lt_trans hxfit (by norm_num))]
  have hmain : MidiPulse.delta_ns_from_host tb a b
      = (if b ≤ a then (((a - b) * tb.numer / tb.denom : Nat) : Int)
         else -(((b - a) * tb.numer / tb.denom : Nat) : Int)) := by
    unfold MidiPulse.delta_ns_from_host
    by_cases hcmp : b ≤ a
    · rw [if_pos hcmp, if_pos hcmp, hto _ hab hfit, toInt64_of_lt _ hfit]
    · rw [if_neg hcmp, if_neg hcmp, hto _ hba hfit2, toInt64_of_lt _ hfit2]
  refine ⟨h1, h2, hmain, ?_⟩
  unfold MidiStats.delta_ns_from_host MidiPulse.delta_ns_from_host
    MidiStats.host_to_ns MidiPulse.host_to_ns
  rfl

/-- C7 witness: the theorem applied at a concrete 125/3 timebase and a
concrete tick pair in each direction. -/
theorem c7_witness :
    ((10007 - 10000) * 125 < 2 ^ 128)
    ∧ ((10000 - 10007) * 125 < 2 ^ 128)
    ∧ MidiPulse.delta_ns_from_host ⟨125, 3⟩ 10007 10000
        = (if 10000 ≤ 10007 then (((10007 - 10000) * 125 / 3 : Nat) : Int)
           else -(((10000 - 10007) * 125 / 3 : Nat) : Int))
    ∧ MidiStats.delta_ns_from_host ⟨125, 3⟩ 10007 10000
        = MidiPulse.delta_ns_from_host ⟨125, 3⟩ 10007 10000 :=
  c7_signed_delta ⟨125, 3⟩ 10007 10000 (by norm_num) (by norm_num) (by norm_num)
    (by norm_num) (by norm_num)

/-- C3: the buffer `[0x91, 0x3C, 0x64]` (note-on, channel 2, velocity
100) yields exactly one qualifying event under channel filter 2, zero
under channel filter 1, and the buffer `[0x91, 0x3C, 0x00]` (note-on
with velocity 0) yields zero qualifying events under every channel
filter. -/
theorem c3_classifier_note_on_filter :
    (MidiStats.process_packet_bytes (MidiStats.init_state ⟨2, 0, 100⟩) ⟨1, 1⟩ 5 7
        [0x91, 0x3C, 0x64]).state.events_seen = 1
    ∧ (MidiStats.process_packet_bytes (MidiStats.init_state ⟨1, 0, 100⟩) ⟨1, 1⟩ 5 7
        [0x91, 0x3C, 0x64]).state.events_seen = 0
    ∧ ∀ c : Nat,
        (MidiStats.process_packet_bytes (MidiStats.init_state ⟨c, 0, 100⟩) ⟨1, 1⟩ 5 7
            [0x91, 0x3C, 0x00]).state.events_seen = 0 := by
  refine ⟨by decide, by decide, fun c => ?_⟩
  have h1 : (145 &&& 240 : Nat) = 144 := by decide
  have h2 : (145 &&& 128 : Nat) = 128 := by decide
  have h3 : (145 &&& 15 : Nat) = 1 := by decide
  simp [MidiStats.process_packet_bytes, MidiStats.process_loop,
    MidiStats.midi_channel_message_length, h1, h2, h3, List.getD, MidiStats.init_state]

/-- C2 counterexample: feeding the series the timestamps
`1000, 100001000, 200001000, 330001000` (at a 1:1 timebase), whose
successive intervals are 100 ms, 100 ms, 130 ms, leaves the jitter
accumulator with three samples, not the two the claim states: the code
also records a jitter sample (always 0) for the very first interval, so
the accumulator differs from one fed exactly `[0ms, 30ms]`. -/
theorem c2_counterexample :
    (MidiStats.series_feed ⟨1, 1⟩ MidiStats.series_init
        [1000, 100001000, 200001000, 330001000]).jitter.count = 3
    ∧ (MidiStats.jitter_fold [0, 30000000]).count = 2
    ∧ (MidiStats.series_feed ⟨1, 1⟩ MidiStats.series_init
          [1000, 100001000, 200001000, 330001000]).jitter
        ≠ MidiStats.jitter_fold [0, 30000000] :=
  ⟨by decide, by decide,
    fun h => absurd (congrArg MidiStats.JitterStats.count h) (by decide)⟩

/-- C2 amended: the first measured interval is fixed as the permanent
reference interval (a later event never changes a fixed reference), and
a jitter sample is recorded for every measured interval from the first
one onward — the first jitter sample is identically zero since the
reference is that very interval — so interval samples
`[100ms, 100ms, 130ms]` produce exactly the jitter samples
`[0ms, 0ms, 30ms]`. -/
theorem c2_jitter_reference_amended (tb : Timebase) (s : MidiStats.SeriesStats) (t : Nat) :
    (s.have_previous = true → s.have_reference_interval = false →
      (MidiStats.series_add_event tb s t).have_reference_interval = true
      ∧ (MidiStats.series_add_event tb s t).reference_interval_ns
          = MidiStats.delta_ns_from_host tb t s.previous_timestamp)
    ∧ (s.have_reference_interval = true →
      (MidiStats.series_add_event tb s t).have_reference_interval = true
      ∧ (MidiStats.series_add_event tb s t).reference_interval_ns
          = s.reference_interval_ns)
    ∧ (MidiStats.series_feed ⟨1, 1⟩ MidiStats.series_init
          [1000, 100001000, 200001000, 330001000]).reference_interval_ns = 100000000
    ∧ (MidiStats.series_feed ⟨1, 1⟩ MidiStats.series_init
          [1000, 100001000, 200001000, 330001000]).jitter
        = MidiStats.jitter_fold [0, 0, 30000000] := by
  refine ⟨fun hp hr => ?_, fun hr => ?_, by decide, ?_⟩
  · simp [MidiStats.series_add_event, hp, hr]
  · by_cases hp : s.have_previous
    · simp [MidiStats.series_add_event, hp, hr]
    · simp [MidiStats.series_add_event, hp, hr]
  · have hd0 : MidiStats.delta_ns_from_host ⟨1, 1⟩ 100001000 1000 = 100000000 := by decide
    have hd1 : MidiStats.delta_ns_from_host ⟨1, 1⟩ 200001000 100001000 = 100000000 := by
      decide
    have hd2 : MidiStats.delta_ns_from_host ⟨1, 1⟩ 330001000 200001000 = 130000000 := by
      decide
    simp [MidiStats.series_feed, MidiStats.series_add_event, MidiStats.series_init,
      MidiStats.jitter_fold, MidiStats.jitter_add, MidiStats.jitter_init,
      MidiStats.interval_add, hd0, hd1, hd2]

/-- C5: a qualifying event with a zero hardware timestamp increments
only the untimestamped counter and feeds only the effective-time series,
using the arrival timestamp; a qualifying event with a nonzero hardware
timestamp increments the timestamped counter, feeds the effective-time
series with the hardware timestamp, also feeds the timestamp-only
series, and adds `signedDelta(arrival, hardwareTimestamp)` to the
arrival-lateness accumulator. -/
theorem c5_timestamp_routing (tb : Timebase) (st : MidiStats.RuntimeState)
    (pts ats : Nat) :
    (pts = 0 →
      (MidiStats.on_matching_event tb st pts ats).untimestamped_events
          = st.untimestamped_events + 1
      ∧ (MidiStats.on_matching_event tb st pts ats).timestamped_events
          = st.timestamped_events
      ∧ (MidiStats.on_matching_event tb st pts ats).timestamped_series
          = st.timestamped_series
      ∧ (MidiStats.on_matching_event tb st pts ats).arrival_vs_timestamp
          = st.arrival_vs_timestamp
      ∧ (MidiStats.on_matching_event tb st pts ats).effective_series
          = MidiStats.series_add_event tb st.effective_series ats)
    ∧ (pts ≠ 0 →
      (MidiStats.on_matching_event tb st pts ats).timestamped_events
          = st.timestamped_events + 1
      ∧ (MidiStats.on_matching_event tb st pts ats).untimestamped_events
          = st.untimestamped_events
      ∧ (MidiStats.on_matching_event tb st pts ats).effective_series
          = MidiStats.series_add_event tb st.effective_series pts
      ∧ (MidiStats.on_matching_event tb st pts ats).timestamped_series
          = MidiStats.series_add_event tb st.timestamped_series pts
      ∧ (MidiStats.on_matching_event tb st pts ats).arrival_vs_timestamp
          = MidiStats.jitter_add st.arrival_vs_timestamp
              (MidiStats.delta_ns_from_host tb ats pts)) := by
  constructor
  · intro h
    subst h
    simp only [MidiStats.on_matching_event]
    simp only [ne_eq, not_true_eq_false, if_false, ite_false]
    split <;> simp
  · intro h
    simp only [MidiStats.on_matching_event, if_pos h]
    split <;> simp

/-- C5 witness: the theorem applied at a concrete state and concrete
timestamps (the zero-timestamp side discharged at `pts = 0`). -/
theorem c5_witness :
    (MidiStats.on_matching_event ⟨1, 1⟩ (MidiStats.init_state ⟨2, 0, 100⟩) 0
        9000).untimestamped_events = (MidiStats.init_state ⟨2, 0, 100⟩).untimestamped_events + 1
    ∧ (MidiStats.on_matching_event ⟨1, 1⟩ (MidiStats.init_state ⟨2, 0, 100⟩) 0
        9000).timestamped_events = (MidiStats.init_state ⟨2, 0, 100⟩).timestamped_events
    ∧ (MidiStats.on_matching_event ⟨1, 1⟩ (MidiStats.init_state ⟨2, 0, 100⟩) 0
        9000).timestamped_series = (MidiStats.init_state ⟨2, 0, 100⟩).timestamped_series
    ∧ (MidiStats.on_matching_event ⟨1, 1⟩ (MidiStats.init_state ⟨2, 0, 100⟩) 0
        9000).arrival_vs_timestamp = (MidiStats.init_state ⟨2, 0, 100⟩).arrival_vs_timestamp
    ∧ (MidiStats.on_matching_event ⟨1, 1⟩ (MidiStats.init_state ⟨2, 0, 100⟩) 0
        9000).effective_series
        = MidiStats.series_add_event ⟨1, 1⟩
            (MidiStats.init_state ⟨2, 0, 100⟩).effective_series 9000 :=
  (c5_timestamp_routing ⟨1, 1⟩ (MidiStats.init_state ⟨2, 0, 100⟩) 0 9000).1 rfl

/-- C8: the report functions are read-only and deterministic in the
accumulated state — both tools' report functions leave the state exactly
as it was, and a second call on the state left by the first, with no
samples added in between, produces the identical numeric output (hence
byte-identical formatted lines). -/
theorem c8_report_idempotent (state : MidiStats.RuntimeState) (final_report : Bool)
    (stats : MidiPulse.JitterStats) (note_count : Nat) :
    (MidiStats.print_report state final_report).2 = state
    ∧ (MidiStats.print_report (MidiStats.print_report state final_report).2 final_report).1
        = (MidiStats.print_report state final_report).1
    ∧ (MidiPulse.stats_print stats note_count).2 = stats
    ∧ (MidiPulse.stats_print (MidiPulse.stats_print stats note_count).2 note_count).1
        = (MidiPulse.stats_print stats note_count).1 := by
  have hp : (MidiPulse.stats_print stats note_count).2 = stats := by
    unfold MidiPulse.stats_print
    split <;> rfl
  exact ⟨rfl, rfl, hp, by rw [hp]⟩

section StatsFoldHelpers

/-- The sum of a list of integer casts is at least the length times any
common lower bound. -/
lemma sum_cast_ge (l : List Int) (m : Int) (h : ∀ x ∈ l, m ≤ x) :
    (l.length : ℚ) * (m : ℚ) ≤ (l.map fun x : Int => (x : ℚ)).sum := by
  induction l with
  | nil => simp
  | cons x xs ih =>
    have hx : (m : ℚ) ≤ (x : ℚ) := by exact_mod_cast h x (by simp)
    have hxs := ih fun y hy => h y (by simp [hy])
    simp only [List.map_cons, List.sum_cons, List.length_cons]
    push_cast
    linarith

/-- The sum of a list of integer casts is at most the length times any
common upper bound. -/
lemma sum_cast_le (l : List Int) (m : Int) (h : ∀ x ∈ l, x ≤ m) :
    (l.map fun x : Int => (x : ℚ)).sum ≤ (l.length : ℚ) * (m : ℚ) := by
  induction l with
  | nil => simp
  | cons x xs ih =>
    have hx : (x : ℚ) ≤ (m : ℚ) := by exact_mod_cast h x (by simp)
    have hxs := ih fun y hy => h y (by simp [hy])
    simp only [List.map_cons, List.sum_cons, List.length_cons]
    push_cast
    linarith

namespace MidiPulse

lemma stats_foldl_count (l : List Int) : ∀ s : JitterStats,
    (l.foldl stats_add s).count = s.count + l.length := by
  induction l with
  | nil => simp
  | cons x xs ih =>
    intro s
    simp only [List.foldl_cons, ih, stats_add, List.length_cons]
    omega

lemma stats_foldl_sum (l : List Int) : ∀ s : JitterStats,
    (l.foldl stats_add s).sum_late_ns
      = s.sum_late_ns + (l.map fun x : Int => (x : ℚ)).sum := by
  induction l with
  | nil => simp
  | cons x xs ih =>
    intro s
    simp only [List.foldl_cons, ih, stats_add, List.map_cons, List.sum_cons]
    ring

lemma stats_foldl_min_le_init (l : List Int) : ∀ s : JitterStats,
    (l.foldl stats_add s).min_late_ns ≤ s.min_late_ns := by
  induction l with
  | nil => simp
  | cons x xs ih =>
    intro s
    refine le_trans (ih (stats_add s x)) ?_
    simp only [stats_add]
    split <;> omega

lemma stats_foldl_min_le (l : List Int) : ∀ (s : JitterStats) (x : Int), x ∈ l →
    (l.foldl stats_add s).min_late_ns ≤ x := by
  induction l with
  | nil => intro s x hx; simp at hx
  | cons y ys ih =>
    intro s x hx
    rcases List.mem_cons.mp hx with rfl | hmem
    · refine le_trans (stats_foldl_min_le_init ys (stats_add s x)) ?_
      simp only [stats_add]
      split <;> omega
    · exact ih (stats_add s y) x hmem

lemma stats_foldl_le_max_init (l : List Int) : ∀ s : JitterStats,
    s.max_late_ns ≤ (l.foldl stats_add s).max_late_ns := by
  induction l with
  | nil => simp
  | cons x xs ih =>
    intro s
    refine le_trans ?_ (ih (stats_add s x))
    simp only [stats_add]
    split <;> omega

lemma stats_foldl_le_max (l : List Int) : ∀ (s : JitterStats) (x : Int), x ∈ l →
    x ≤ (l.foldl stats_add s).max_late_ns := by
  induction l with
  | nil => intro s x hx; simp at hx
  | cons y ys ih =>
    intro s x hx
    rcases List.mem_cons.mp hx with rfl | hmem
    · refine le_trans ?_ (stats_foldl_le_max_init ys (stats_add s x))
      simp only [stats_add]
      split <;> omega
    · exact ih (stats_add s y) x hmem

end MidiPulse

namespace MidiStats

lemma interval_foldl_count (l : List Int) : ∀ s : IntervalStats,
    (l.foldl interval_add s).count = s.count + l.length := by
  induction l with
  | nil => simp
  | cons x xs ih =>
    intro s
    simp only [List.foldl_cons, ih, interval_add, List.length_cons]
    omega

lemma interval_foldl_sum (l : List Int) : ∀ s : IntervalStats,
    (l.foldl interval_add s).sum_ns = s.sum_ns + (l.map fun x : Int => (x : ℚ)).sum := by
  induction l with
  | nil => simp
  | cons x xs ih =>
    intro s
    simp only [List.foldl_cons, ih, interval_add, List.map_cons, List.sum_cons]
    ring

lemma interval_foldl_min_le_init (l : List Int) : ∀ s : IntervalStats,
    (l.foldl interval_add s).min_ns ≤ s.min_ns := by
  induction l with
  | nil => simp
  | cons x xs ih =>
    intro s
    refine le_trans (ih (interval_add s x)) ?_
    simp only [interval_add]
    split <;> omega

lemma interval_foldl_min_le (l : List Int) : ∀ (s : IntervalStats) (x : Int), x ∈ l →
    (l.foldl interval_add s).min_ns ≤ x := by
  induction l with
  | nil => intro s x hx; simp at hx
  | cons y ys ih =>
    intro s x hx
    rcases List.mem_cons.mp hx with rfl | hmem
    · refine le_trans (interval_foldl_min_le_init ys (interval_add s x)) ?_
      simp only [interval_add]
      split <;> omega
    · exact ih (interval_add s y) x hmem

lemma interval_foldl_le_max_init (l : List Int) : ∀ s : IntervalStats,
    s.max_ns ≤ (l.foldl interval_add s).max_ns := by
  induction l with
  | nil => simp
  | cons x xs ih =>
    intro s
    refine le_trans ?_ (ih (interval_add s x))
    simp only [interval_add]
    split <;> omega

lemma interval_foldl_le_max (l : List Int) : ∀ (s : IntervalStats) (x : Int), x ∈ l →
    x ≤ (l.foldl interval_add s).max_ns := by
  induction l with
  | nil => intro s x hx; simp at hx
  | cons y ys ih =>
    intro s x hx
    rcases List.mem_cons.mp hx with rfl | hmem
    · refine le_trans ?_ (interval_foldl_le_max_init ys (interval_add s x))
      simp only [interval_add]
      split <;> omega
    · exact ih (interval_add s y) x hmem

end MidiStats

end StatsFoldHelpers

/-- C4: after feeding any finite sequence of signed nanosecond samples
to either tool's freshly initialised statistics accumulator, the count
equals the number of additions, the running minimum is at most every
added sample, the running maximum is at least every added sample, and
when at least one sample was added the mean (sum divided by count) lies
within the closed interval from the minimum to the maximum. -/
theorem c4_accumulator_invariants (l : List Int) :
    (MidiPulse.stats_fold l).count = l.length
    ∧ (MidiStats.interval_fold l).count = l.length
    ∧ (∀ x ∈ l,
        (MidiPulse.stats_fold l).min_late_ns ≤ x
        ∧ x ≤ (MidiPulse.stats_fold l).max_late_ns
        ∧ (MidiStats.interval_fold l).min_ns ≤ x
        ∧ x ≤ (MidiStats.interval_fold l).max_ns)
    ∧ (0 < l.length →
        (((MidiPulse.stats_fold l).min_late_ns : ℚ)
            ≤ (MidiPulse.stats_fold l).sum_late_ns / ((MidiPulse.stats_fold l).count : ℚ)
          ∧ (MidiPulse.stats_fold l).sum_late_ns / ((MidiPulse.stats_fold l).count : ℚ)
            ≤ ((MidiPulse.stats_fold l).max_late_ns : ℚ))
        ∧ (((MidiStats.interval_fold l).min_ns : ℚ)
            ≤ (MidiStats.interval_fold l).sum_ns / ((MidiStats.interval_fold l).count : ℚ)
          ∧ (MidiStats.interval_fold l).sum_ns / ((MidiStats.interval_fold l).count : ℚ)
            ≤ ((MidiStats.interval_fold l).max_ns : ℚ))) := by
  have hc1 : (MidiPulse.stats_fold l).count = l.length := by
    have := MidiPulse.stats_foldl_count l MidiPulse.stats_init
    simpa [MidiPulse.stats_fold, MidiPulse.stats_init] using this
  have hc2 : (MidiStats.interval_fold l).count = l.length := by
    have := MidiStats.interval_foldl_count l MidiStats.interval_init
    simpa [MidiStats.interval_fold, MidiStats.interval_init] using this
  have hs1 : (MidiPulse.stats_fold l).sum_late_ns = (l.map fun x : Int => (x : ℚ)).sum := by
    have := MidiPulse.stats_foldl_sum l MidiPulse.stats_init
    simpa [MidiPulse.stats_fold, MidiPulse.stats_init] using this
  have hs2 : (MidiStats.interval_fold l).sum_ns = (l.map fun x : Int => (x : ℚ)).sum := by
    have := MidiStats.interval_foldl_sum l MidiStats.interval_init
    simpa [MidiStats.interval_fold, MidiStats.interval_init] using this
  refine ⟨hc1, hc2, ?_, ?_⟩
  · intro x hx
    exact ⟨MidiPulse.stats_foldl_min_le l MidiPulse.stats_init x hx,
      MidiPulse.stats_foldl_le_max l MidiPulse.stats_init x hx,
      MidiStats.interval_foldl_min_le l MidiStats.interval_init x hx,
      MidiStats.interval_foldl_le_max l MidiStats.interval_init x hx⟩
  · intro hlen
    have hlenq : (0 : ℚ) < (l.length : ℚ) := by exact_mod_cast hlen
    constructor
    · rw [hc1, hs1]
      constructor
      · rw [le_div_iff₀ hlenq]
        have := sum_cast_ge l (MidiPulse.stats_fold l).min_late_ns
          (fun x hx => MidiPulse.stats_foldl_min_le l MidiPulse.stats_init x hx)
        linarith
      · rw [div_le_iff₀ hlenq]
        have := sum_cast_le l (MidiPulse.stats_fold l).max_late_ns
          (fun x hx => MidiPulse.stats_foldl_le_max l MidiPulse.stats_init x hx)
        linarith
    · rw [hc2, hs2]
      constructor
      · rw [le_div_iff₀ hlenq]
        have := sum_cast_ge l (MidiStats.interval_fold l).min_ns
          (fun x hx => MidiStats.interval_foldl_min_le l MidiStats.interval_init x hx)
        linarith
      · rw [div_le_iff₀ hlenq]
        have := sum_cast_le l (MidiStats.interval_fold l).max_ns
          (fun x hx => MidiStats.interval_foldl_le_max l MidiStats.interval_init x hx)
        linarith

section CounterInvariants

/-- Inductive per-series consistency: the interval counter mirrors both
accumulators' counts, a series with a previous timestamp has seen one
event more than its intervals, and a series without one has seen no
interval yet. -/
def MidiStats.series_ok (s : MidiStats.SeriesStats) : Prop :=
  s.intervals_seen = s.interval.count
  ∧ s.intervals_seen = s.jitter.count
  ∧ (s.have_previous = true → s.events_seen = s.intervals_seen + 1)
  ∧ (s.have_previous = false → s.intervals_seen = 0)

/-- Inductive whole-state consistency: the event counter splits into the
timestamped and untimestamped counters, and both series are
consistent. -/
def MidiStats.state_ok (st : MidiStats.RuntimeState) : Prop :=
  st.events_seen = st.timestamped_events + st.untimestamped_events
  ∧ MidiStats.series_ok st.effective_series
  ∧ MidiStats.series_ok st.timestamped_series

lemma MidiStats.series_ok_init : MidiStats.series_ok MidiStats.series_init := by
  simp [MidiStats.series_ok, MidiStats.series_init, MidiStats.interval_init,
    MidiStats.jitter_init]

lemma MidiStats.series_ok_add (tb : Timebase) (s : MidiStats.SeriesStats) (t : Nat)
    (h : MidiStats.series_ok s) : MidiStats.series_ok (MidiStats.series_add_event tb s t) := by
  obtain ⟨h1, h2, h3, h4⟩ := h
  by_cases hp : s.have_previous = false
  · have h0 := h4 hp
    simp [MidiStats.series_ok, MidiStats.series_add_event, hp, MidiStats.interval_add,
      MidiStats.jitter_add, h0, h1.symm, h2.symm]
  · rw [Bool.not_eq_false] at hp
    by_cases hr : s.have_reference_interval = false
    · simp [MidiStats.series_ok, MidiStats.series_add_event, hp, hr,
        MidiStats.interval_add, MidiStats.jitter_add, h1, h2, h3 hp]
      omega
    · rw [Bool.not_eq_false] at hr
      simp [MidiStats.series_ok, MidiStats.series_add_event, hp, hr,
        MidiStats.interval_add, MidiStats.jitter_add, h1, h2, h3 hp]
      omega

lemma MidiStats.state_ok_init (cfg : MidiStats.Config) :
    MidiStats.state_ok (MidiStats.init_state cfg) := by
  refine ⟨by simp [MidiStats.init_state], ?_, ?_⟩ <;>
    simpa [MidiStats.init_state] using MidiStats.series_ok_init

lemma MidiStats.state_ok_event (tb : Timebase) (st : MidiStats.RuntimeState)
    (pts ats : Nat) (h : MidiStats.state_ok st) :
    MidiStats.state_ok (MidiStats.on_matching_event tb st pts ats) := by
  obtain ⟨h1, h2, h3⟩ := h
  unfold MidiStats.on_matching_event MidiStats.state_ok
  by_cases hts : pts ≠ 0
  · simp only [if_pos hts]
    split <;>
      exact ⟨show st.events_seen + 1 = st.timestamped_events + 1 + st.untimestamped_events by
          omega,
        MidiStats.series_ok_add tb _ _ h2, MidiStats.series_ok_add tb _ _ h3⟩
  · simp only [if_neg hts]
    split <;>
      exact ⟨show st.events_seen + 1 = st.timestamped_events + (st.untimestamped_events + 1) by
          omega,
        MidiStats.series_ok_add tb _ _ h2, h3⟩

lemma MidiStats.state_ok_run (tb : Timebase) (evs : List (Nat × Nat)) :
    ∀ st : MidiStats.RuntimeState, MidiStats.state_ok st →
      MidiStats.state_ok (MidiStats.run_events tb st evs) := by
  induction evs with
  | nil => intro st h; simpa [MidiStats.run_events] using h
  | cons e es ih =>
    intro st h
    exact ih _ (MidiStats.state_ok_event tb st e.1 e.2 h)

end CounterInvariants

/-- C9: every state the qualifying-event handler reaches from the
initial receiver state satisfies the counter-consistency invariant:
events seen equals timestamped plus untimestamped events, and within
each series the interval counter equals both accumulators' counts while
a series holding a previous timestamp has seen exactly one more event
than intervals. -/
theorem c9_counter_invariants (tb : Timebase) (cfg : MidiStats.Config)
    (evs : List (Nat × Nat)) :
    (MidiStats.run_events tb (MidiStats.init_state cfg) evs).events_seen
        = (MidiStats.run_events tb (MidiStats.init_state cfg) evs).timestamped_events
          + (MidiStats.run_events tb (MidiStats.init_state cfg) evs).untimestamped_events
    ∧ ((MidiStats.run_events tb (MidiStats.init_state cfg) evs).effective_series.intervals_seen
          = (MidiStats.run_events tb (MidiStats.init_state cfg) evs).effective_series.interval.count
        ∧ (MidiStats.run_events tb (MidiStats.init_state cfg) evs).effective_series.intervals_seen
          = (MidiStats.run_events tb (MidiStats.init_state cfg) evs).effective_series.jitter.count
        ∧ ((MidiStats.run_events tb (MidiStats.init_state cfg) evs).effective_series.have_previous
              = true →
            (MidiStats.run_events tb (MidiStats.init_state cfg) evs).effective_series.events_seen
              = (MidiStats.run_events tb
                  (MidiStats.init_state cfg) evs).effective_series.intervals_seen + 1))
    ∧ ((MidiStats.run_events tb (MidiStats.init_state cfg) evs).timestamped_series.intervals_seen
          = (MidiStats.run_events tb
              (MidiStats.init_state cfg) evs).timestamped_series.interval.count
        ∧ (MidiStats.run_events tb (MidiStats.init_state cfg) evs).timestamped_series.intervals_seen
          = (MidiStats.run_events tb
              (MidiStats.init_state cfg) evs).timestamped_series.jitter.count
        ∧ ((MidiStats.run_events tb (MidiStats.init_state cfg) evs).timestamped_series.have_previous
              = true →
            (MidiStats.run_events tb (MidiStats.init_state cfg) evs).timestamped_series.events_seen
              = (MidiStats.run_events tb
                  (MidiStats.init_state cfg) evs).timestamped_series.intervals_seen + 1)) := by
  have h := MidiStats.state_ok_run tb evs (MidiStats.init_state cfg)
    (MidiStats.state_ok_init cfg)
  obtain ⟨h1, ⟨e1, e2, e3, _⟩, ⟨t1, t2, t3, _⟩⟩ := h
  exact ⟨h1, ⟨e1, e2, e3⟩, ⟨t1, t2, t3⟩⟩

section TerminationHelpers

/-- The system-exclusive scan never stops before the byte that started
it: its stopping index is at least the index it started from. -/
lemma MidiStats.sysex_end_ge (data : List Nat) (k : Nat) :
    k ≤ MidiStats.sysex_end data k :=
  Nat.le_add_right k _

/-- Fuel sufficiency and the pass bound for the classifier's scan loop:
with at least `length - i` fuel the loop reaches its exit, and it runs at
most `length - i` passes, because every pass either advances the index by
at least one or exits on a truncated trailing message. -/
lemma MidiStats.process_loop_bound (tb : Timebase) (pts ats : Nat) (data : List Nat) :
    ∀ (fuel i : Nat) (st : MidiStats.RuntimeState), data.length - i ≤ fuel →
      (MidiStats.process_loop tb pts ats data fuel i st).finished = true
      ∧ (MidiStats.process_loop tb pts ats data fuel i st).passes ≤ data.length - i := by
  intro fuel
  induction fuel with
  | zero =>
    intro i st hle
    have hi : data.length ≤ i := by omega
    simp [MidiStats.process_loop, hi]
  | succ fuel ih =>
    intro i st hle
    by_cases hi : data.length ≤ i
    · simp [MidiStats.process_loop, hi]
    · have hcont : ∀ (j : Nat) (st' : MidiStats.RuntimeState), i < j →
          (MidiStats.LoopResult.mk
              (MidiStats.process_loop tb pts ats data fuel j st').state
              ((MidiStats.process_loop tb pts ats data fuel j st').passes + 1)
              (MidiStats.process_loop tb pts ats data fuel j st').finished).finished = true
          ∧ (MidiStats.LoopResult.mk
              (MidiStats.process_loop tb pts ats data fuel j st').state
              ((MidiStats.process_loop tb pts ats data fuel j st').passes + 1)
              (MidiStats.process_loop tb pts ats data fuel j st').finished).passes
            ≤ data.length - i := by
        intro j st' hj
        obtain ⟨hf, hp⟩ := ih j st' (by omega)
        refine ⟨hf, ?_⟩
        show (MidiStats.process_loop tb pts ats data fuel j st').passes + 1
          ≤ data.length - i
        omega
      have hbreak : (MidiStats.LoopResult.mk st 1 true).finished = true
          ∧ (MidiStats.LoopResult.mk st 1 true).passes ≤ data.length - i :=
        ⟨rfl, show 1 ≤ data.length - i by omega⟩
      have hsys := MidiStats.sysex_end_ge data (i + 1)
      have hmsg : 1 ≤ MidiStats.midi_channel_message_length (data.getD i 0) := by
        unfold MidiStats.midi_channel_message_length
        split <;> omega
      simp only [MidiStats.process_loop, if_neg hi]
      split_ifs with h1 h2 h3 h4 h5 h6 h7 h8
      · exact hcont (i + 1) st (by omega)
      · exact hcont (MidiStats.sysex_end data (i + 1) + 1) st (by omega)
      · exact hcont (MidiStats.sysex_end data (i + 1)) st (by omega)
      · exact hcont (i + 1) st (by omega)
      · exact hbreak
      · exact hcont (i + MidiStats.midi_system_message_length (data.getD i 0)) st (by omega)
      · exact hbreak
      · exact hcont (i + MidiStats.midi_channel_message_length (data.getD i 0))
          (MidiStats.on_matching_event tb st pts ats) (by omega)
      · exact hcont (i + MidiStats.midi_channel_message_length (data.getD i 0)) st (by omega)

end TerminationHelpers

/-- C10: the byte-stream classifier terminates on every finite buffer:
scanning a buffer of length `n` completes (each pass either advances the
index by at least one byte or exits on a truncated trailing message) and
performs at most `n` passes of the scan loop. -/
theorem c10_classifier_terminates (tb : Timebase) (st : MidiStats.RuntimeState)
    (pts ats : Nat) (data : List Nat) :
    (MidiStats.process_packet_bytes st tb pts ats data).finished = true
    ∧ (MidiStats.process_packet_bytes st tb pts ats data).passes ≤ data.length := by
  obtain ⟨hf, hp⟩ :=
    MidiStats.process_loop_bound tb pts ats data data.length 0 st (by omega)
  exact ⟨hf, by simpa using hp⟩
